import Mathlib

/-!
Verification development for the `str_mut_signatures` pipeline.

The development shallowly embeds the two core components:
  - the VCF extractor (`extract.py`: `parse_info`, `parse_repcn`,
    `process_vcf_to_rows`, `parse_vcf_files`), modelled as a pure state
    machine over the list of text lines of a file;
  - the matrix builder (`matrix_builder.py`: `build_mutation_matrix` with its
    inner helpers `compute_allele_changes` and `make_feature`).

Python string primitives are re-implemented structurally over `List Char`
so that every definition is executable and kernel-reducible.  The models of
the Python builtins (`str.split`, `str.strip`, `str.isnumeric`, `int(...)`)
cover the ASCII text the pipeline consumes; Unicode-only behaviours
(non-ASCII numerals, exotic whitespace, underscores in integer literals) are
outside the embedding.
-/

/-- Bool test that the first list is an initial segment of the second. -/
def listStarts : List Char → List Char → Bool
  | [], _ => true
  | _ :: _, [] => false
  | x :: xs, y :: ys => x == y && listStarts xs ys

/-- Models Python `str.startswith`. -/
def strStarts (p s : String) : Bool := listStarts p.data s.data

/-- Models Python `str.endswith`. -/
def strEnds (p s : String) : Bool := listStarts p.data.reverse s.data.reverse

/-- Split a character list at every occurrence of the separator; the result
always has one more block than there are separators (so the empty list maps
to `[[]]`, matching Python `"".split(sep) == [""]`). -/
def splitChars (c : Char) : List Char → List (List Char)
  | [] => [[]]
  | x :: xs =>
    let r := splitChars c xs
    if x == c then [] :: r
    else
      match r with
      | [] => [[x]]
      | h :: t => (x :: h) :: t

/-- Models Python `str.split(sep)` for a one-character separator. -/
def strSplitOnChar (c : Char) (s : String) : List String :=
  (splitChars c s.data).map String.mk

/-- Split at the first occurrence of the separator character, or `none` when
the separator does not occur.  Models Python `s.split(sep, 1)` guarded by
`sep in s`. -/
def splitFirstCharAux (c : Char) (acc : List Char) : List Char → Option (String × String)
  | [] => none
  | x :: xs =>
    if x == c then some (String.mk acc.reverse, String.mk xs)
    else splitFirstCharAux c (x :: acc) xs

/-- Split at the first occurrence of the separator character, or `none` when
the separator does not occur; models Python `s.split(sep, 1)` guarded by a
membership test of `sep` in `s`. -/
def splitFirstChar (c : Char) (s : String) : Option (String × String) :=
  splitFirstCharAux c [] s.data

/-- Models Python `str.strip()` (for the ASCII whitespace characters). -/
def pyStrip (s : String) : String :=
  String.mk (((s.data.dropWhile Char.isWhitespace).reverse.dropWhile
    Char.isWhitespace).reverse)

/-- Models Python `str.isnumeric` on ASCII text: nonempty and all decimal
digits. -/
def pyIsNumeric (s : String) : Bool :=
  !s.data.isEmpty && s.data.all Char.isDigit

/-- Decimal value of a digit list. -/
def digitsVal (l : List Char) : Nat :=
  l.foldl (fun a c => a * 10 + (c.toNat - 48)) 0

/-- Models Python `int(s)` on a string: strips whitespace, accepts an
optional sign followed by decimal digits, fails (`none`) otherwise. -/
def pyIntOfString (s : String) : Option Int :=
  match (pyStrip s).data with
  | '+' :: ds => if !ds.isEmpty && ds.all Char.isDigit then some (digitsVal ds) else none
  | '-' :: ds => if !ds.isEmpty && ds.all Char.isDigit then some (-(digitsVal ds : Int)) else none
  | ds => if !ds.isEmpty && ds.all Char.isDigit then some (digitsVal ds) else none

/-- Replace every (non-overlapping, leftmost-first) occurrence of `pat` by
`repl`, with fuel bounding the recursion; models Python `str.replace` for a
nonempty pattern. -/
def replaceAux (pat repl : List Char) : Nat → List Char → List Char
  | _, [] => []
  | 0, l => l
  | Nat.succ fuel, x :: xs =>
    if listStarts pat (x :: xs) && !pat.isEmpty then
      repl ++ replaceAux pat repl fuel (List.drop (pat.length - 1) xs)
    else
      x :: replaceAux pat repl fuel xs

/-- Models Python `str.replace(pat, repl)`. -/
def strReplace (s pat repl : String) : String :=
  String.mk (replaceAux pat.data repl.data s.data.length s.data)

/-- Last-binding-wins lookup with a default, modelling `dict.get(k, dflt)`
on a dict built from a key/value pair sequence (later duplicates override
earlier ones, as in Python dict construction). -/
def dictGetD (d : List (String × String)) (k dflt : String) : String :=
  match d.reverse.find? (fun p => p.1 == k) with
  | some p => p.2
  | none => dflt

/-- Models `parse_info` from extract.py: split the INFO field on semicolons
and keep the `key=value` items, split at the first equals sign. -/
def parse_info (s : String) : List (String × String) :=
  (strSplitOnChar ';' s).filterMap (splitFirstChar '=')

/-- Models `parse_repcn` from extract.py: comma-split with one part meaning
both alleles share the value, two parts meaning allele A and allele B, and
any other shape yielding the missing-value sentinel for both. -/
def parse_repcn (s : String) : String × String :=
  match strSplitOnChar ',' s with
  | [a, b] => (a, b)
  | [a] => (a, a)
  | _ => (".", ".")

/-- Models `os.path.basename` for slash-separated paths. -/
def baseName (path : String) : String :=
  (strSplitOnChar '/' path).getLastD path

/-- Sample name derivation in `process_vcf_to_rows`:
`os.path.basename(path).replace(".vcf", "").replace(".vcf.gz", "")`. -/
def sampleNameOfPath (path : String) : String :=
  strReplace (strReplace (baseName path) ".vcf" "") ".vcf.gz" ""

/-- A Mutation Record: one output row of `process_vcf_to_rows`. -/
structure MutationRecord where
  sample : String
  tmp_id : String
  tumor_allele_a : String
  tumor_allele_b : String
  normal_allele_a : String
  normal_allele_b : String
  end_ : String
  period : String
  ref : String
  motif : String
deriving DecidableEq

/-- The local state of the per-file loop of `process_vcf_to_rows`. -/
structure ExtractState where
  rows : List MutationRecord
  filterNotPassedCount : Nat
  writtenVariants : Nat
  headerCols : Option (List String)
  normalIdx : Option Nat
  tumorIdx : Option Nat
  formatFields : Option (List String)
deriving DecidableEq

/-- Initial loop state of `process_vcf_to_rows`. -/
def initState : ExtractState :=
  { rows := []
    filterNotPassedCount := 0
    writtenVariants := 0
    headerCols := none
    normalIdx := none
    tumorIdx := none
    formatFields := none }

/-- Models the REPCN lookup closure `get_repcn` inside
`process_vcf_to_rows`: colon-split the sample string, zip it against the
FORMAT keys as a dict, fetch REPCN (default the missing sentinel pair) and
parse it. -/
def getRepcn (formatFields : List String) (sampleStr : String) : String × String :=
  parse_repcn (dictGetD (formatFields.zip (strSplitOnChar ':' sampleStr)) "REPCN" ".,.")

/-- One iteration of the line loop of `process_vcf_to_rows` on a single
line.  Errors model the exceptions raised inside the loop (a `ValueError`
for fewer than two sample columns or for missing sample columns, a
`TypeError` when a data line arrives before any `#CHROM` header set the
sample indices). -/
def extractStep (sampleName : String) (st : ExtractState) (line : String) :
    Except String ExtractState :=
  if strStarts "#CHROM" line then
    let headerCols := strSplitOnChar '\t' (pyStrip line)
    if (headerCols.drop 9).length < 2 then
      Except.error "Expected at least 2 samples (normal, tumor) in VCF"
    else
      Except.ok { st with headerCols := some headerCols, normalIdx := some 9, tumorIdx := some 10 }
  else if strStarts "#" line then
    Except.ok st
  else
    let cols := strSplitOnChar '\t' (pyStrip line)
    if cols.length < 10 then
      Except.ok st
    else if cols.getD 6 "" ≠ "PASS" then
      Except.ok { st with filterNotPassedCount := st.filterNotPassedCount + 1 }
    else
      let info := parse_info (cols.getD 7 "")
      if dictGetD info "PERFECT" "" = "FALSE" then
        Except.ok st
      else
        let tmp_id := cols.getD 0 "" ++ "_" ++ cols.getD 1 ""
        let end_ := dictGetD info "END" ""
        let period := dictGetD info "PERIOD" ""
        let ref := dictGetD info "REF" ""
        let motif := dictGetD info "RU" ""
        let formatFields :=
          match st.formatFields with
          | none => strSplitOnChar ':' (cols.getD 8 "")
          | some l => l
        match st.normalIdx, st.tumorIdx with
        | some ni, some ti =>
          if ni < cols.length ∧ ti < cols.length then
            let na_nb := getRepcn formatFields (cols.getD ni "")
            let ta_tb := getRepcn formatFields (cols.getD ti "")
            if pyIsNumeric na_nb.1 && pyIsNumeric na_nb.2 &&
                pyIsNumeric ta_tb.1 && pyIsNumeric ta_tb.2 then
              Except.ok { st with
                formatFields := some formatFields
                writtenVariants := st.writtenVariants + 1
                rows := st.rows ++ [{
                  sample := sampleName
                  tmp_id := tmp_id
                  tumor_allele_a := ta_tb.1
                  tumor_allele_b := ta_tb.2
                  normal_allele_a := na_nb.1
                  normal_allele_b := na_nb.2
                  end_ := end_
                  period := period
                  ref := ref
                  motif := motif }] }
            else
              Except.ok { st with formatFields := some formatFields }
          else
            Except.error "VCF does not contain expected normal/tumor sample columns"
        | _, _ =>
          Except.error "TypeError: sample column index is not set (no CHROM header)"

/-- The line loop of `process_vcf_to_rows`: fold `extractStep` over the
lines, propagating the first error. -/
def processLines (sampleName : String) (st : ExtractState) :
    List String → Except String ExtractState
  | [] => Except.ok st
  | l :: ls =>
    match extractStep sampleName st l with
    | Except.ok st' => processLines sampleName st' ls
    | Except.error e => Except.error e

/-- Models `process_vcf_to_rows`: a file is its list of text lines (newline
stripped by the per-line `strip()`); the result is the final loop state,
whose `rows` field is the returned row list and whose counters feed the
end-of-file report. -/
def process_vcf_to_rows (path : String) (lines : List String) :
    Except String ExtractState :=
  processLines (sampleNameOfPath path) initState lines

/-- Models the end-of-file FILTER rejection report of `process_vcf_to_rows`:
the percentage is computed only when `written_variants +
filter_not_passed_count` is positive, and is undefined (no report) when the
denominator is zero. -/
def filterRejectionPercent (st : ExtractState) : Option ℚ :=
  let denom := st.writtenVariants + st.filterNotPassedCount
  if denom > 0 then
    some ((st.filterNotPassedCount : ℚ) / (denom : ℚ) * 100)
  else
    none

/-- Models `parse_vcf_files`: fold over the directory listing (a list of
file-name/content pairs), process each file with a recognized extension,
append its rows on success and drop the file on any error (the Python
version also logs the error; logging is not modelled). -/
def parse_vcf_files (files : List (String × List String)) : List MutationRecord :=
  files.foldl
    (fun acc f =>
      if strEnds ".vcf" f.1 || strEnds ".vcf.gz" f.1 then
        match process_vcf_to_rows f.1 f.2 with
        | Except.ok st => acc ++ st.rows
        | Except.error _ => acc
      else acc)
    []

/-- The `ru` configuration axis of `build_mutation_matrix`: Python `None`,
`"length"` or `"ru"` (any other value raises and is not representable
here). -/
inductive RUMode
  | noRU
  | length
  | ru
deriving DecidableEq

/-- The three configuration switches of `build_mutation_matrix`. -/
structure BuildConfig where
  ru : RUMode
  ref_length : Bool
  change : Bool
deriving DecidableEq

/-- One row of the `mutations_data` table as consumed by
`build_mutation_matrix`.  A cell is `none` when it holds a pandas missing
value (NA); allele cells otherwise hold the string produced by the
extractor (or whatever string a CSV round-trip yields). -/
structure DataRow where
  sample : String
  tumor_allele_a : Option String
  tumor_allele_b : Option String
  normal_allele_a : Option String
  normal_allele_b : Option String
  motif : Option String
deriving DecidableEq

/-- Python `int(cell)` on a table cell: an NA cell raises (yielding `none`),
a string cell parses as a decimal integer or raises. -/
def cellInt (v : Option String) : Option Int :=
  match v with
  | none => none
  | some s => pyIntOfString s

/-- The four derived columns produced by `compute_allele_changes`. -/
structure AlleleChanges where
  change_a : Option Int
  change_b : Option Int
  ref_a : Option Int
  ref_b : Option Int
deriving DecidableEq

/-- Models `compute_allele_changes` from matrix_builder.py: parse the four
allele cells as integers (any failure yields NA for all four outputs), sort
each tumor/normal pair ascending (for two elements: min then max), and take
positionwise tumor-minus-normal differences plus the sorted normal values
as reference lengths. -/
def compute_allele_changes (r : DataRow) : AlleleChanges :=
  match cellInt r.tumor_allele_a, cellInt r.tumor_allele_b,
      cellInt r.normal_allele_a, cellInt r.normal_allele_b with
  | some ta, some tb, some na, some nb =>
    { change_a := some (min ta tb - min na nb)
      change_b := some (max ta tb - max na nb)
      ref_a := some (min na nb)
      ref_b := some (max na nb) }
  | _, _, _, _ =>
    { change_a := none, change_b := none, ref_a := none, ref_b := none }

/-- Signed delta formatting in `make_feature`: an explicit leading plus for
positive values, bare digits (with the minus sign) otherwise. -/
def fmtSigned (d : Int) : String :=
  (if d > 0 then "+" else "") ++ toString d

/-- Models Python `"_".join(parts)`. -/
def joinUnderscore : List String → String
  | [] => ""
  | [x] => x
  | x :: y :: t => x ++ "_" ++ joinUnderscore (y :: t)

/-- Models `make_feature` from matrix_builder.py: build the feature label
for one allele slot, or `none` (pandas NA) when the slot is suppressed —
missing motif, missing reference length while `ref_length` is on, missing
or zero delta while `change` is on, or no enabled component at all. -/
def make_feature (cfg : BuildConfig) (motif : Option String) (ref delta : Option Int) :
    Option String :=
  match motif with
  | none => none
  | some m =>
    let parts0 : List String :=
      match cfg.ru with
      | RUMode.length => ["LEN" ++ toString m.length]
      | RUMode.ru => [m]
      | RUMode.noRU => []
    let withRef : Option (List String) :=
      if cfg.ref_length then
        match ref with
        | none => none
        | some rv => some (parts0 ++ [toString rv])
      else some parts0
    match withRef with
    | none => none
    | some parts1 =>
      let withChange : Option (List String) :=
        if cfg.change then
          match delta with
          | none => none
          | some d => if d = 0 then none else some (parts1 ++ [fmtSigned d])
        else some parts1
      match withChange with
      | none => none
      | some parts =>
        if parts.isEmpty then none else some (joinUnderscore parts)

/-- The `mutation_type_a` derived column: feature label of allele slot A. -/
def mutation_type_a (cfg : BuildConfig) (r : DataRow) : Option String :=
  let c := compute_allele_changes r
  make_feature cfg r.motif c.ref_a c.change_a

/-- The `mutation_type_b` derived column: feature label of allele slot B. -/
def mutation_type_b (cfg : BuildConfig) (r : DataRow) : Option String :=
  let c := compute_allele_changes r
  make_feature cfg r.motif c.ref_b c.change_b

/-- Models the melt-to-long-format step followed by `dropna`: all slot-A
events (sample paired with label) in row order, then all slot-B events,
suppressed slots dropped. -/
def meltLong (cfg : BuildConfig) (rows : List DataRow) : List (String × String) :=
  rows.filterMap (fun r => (mutation_type_a cfg r).map (fun l => (r.sample, l)))
    ++ rows.filterMap (fun r => (mutation_type_b cfg r).map (fun l => (r.sample, l)))

/-- Ascending lexicographic sort followed by duplicate removal: the row and
column index of the pandas `groupby ... unstack ... sort_index` result. -/
def sortDedup (l : List String) : List String :=
  (List.insertionSort (· ≤ ·) l).dedup

/-- The mutation category count matrix: sorted distinct sample names, sorted
distinct feature labels, and the count grid in that row/column order. -/
structure CountMatrix where
  samples : List String
  labels : List String
  cells : List (List Nat)
deriving DecidableEq

/-- The empty matrix returned when no events survive suppression (models
the empty `pd.DataFrame()`). -/
def emptyMatrix : CountMatrix := { samples := [], labels := [], cells := [] }

/-- Models `build_mutation_matrix` (after its dynamic-typing validation,
which the typed embedding makes vacuous): derive per-allele changes and
feature labels, melt to long format, drop suppressed entries, return the
empty matrix when nothing is left, otherwise count (sample, label)
occurrences into a grid sorted along both axes with missing combinations
zero. -/
def build_mutation_matrix (cfg : BuildConfig) (rows : List DataRow) : CountMatrix :=
  let ev := meltLong cfg rows
  if ev.isEmpty then emptyMatrix
  else
    let samples := sortDedup (ev.map Prod.fst)
    let labels := sortDedup (ev.map Prod.snd)
    { samples := samples
      labels := labels
      cells := samples.map (fun s =>
        labels.map (fun l => ev.countP (fun e => e == (s, l)))) }

/-- The configuration `ru="length", ref_length=True, change=True`. -/
def cfgLenRefChange : BuildConfig :=
  { ru := RUMode.length, ref_length := true, change := true }

/-- The configuration `ru=None, ref_length=True, change=False`. -/
def cfgRefOnly : BuildConfig :=
  { ru := RUMode.noRU, ref_length := true, change := false }

/-- The record of the concrete spec scenario: motif AT, normal alleles
(8, 10), tumor alleles (8, 11). -/
def rowC2 : DataRow :=
  { sample := "S1"
    tumor_allele_a := some "8"
    tumor_allele_b := some "11"
    normal_allele_a := some "8"
    normal_allele_b := some "10"
    motif := some "AT" }

/-- A record with equal sorted tumor and normal allele pairs (10, 12). -/
def rowC3 : DataRow :=
  { sample := "S2"
    tumor_allele_a := some "10"
    tumor_allele_b := some "12"
    normal_allele_a := some "12"
    normal_allele_b := some "10"
    motif := some "A" }

/-- A record whose motif cell is NA. -/
def rowNAMotif : DataRow :=
  { sample := "S3"
    tumor_allele_a := some "5"
    tumor_allele_b := some "7"
    normal_allele_a := some "5"
    normal_allele_b := some "6"
    motif := none }

/-- A VCF header line with the nine fixed columns and two sample columns
(normal N1 first, tumor T1 second). -/
def exHeaderLine : String :=
  "#CHROM\tPOS\tID\tREF\tALT\tQUAL\tFILTER\tINFO\tFORMAT\tN1\tT1"

/-- A PASS data line with numeric REPCN values for both samples. -/
def exPassLine : String :=
  "chr1\t100\t.\tA\tT\t.\tPASS\tEND=120;PERIOD=2;REF=10;RU=AT\tGT:REPCN\t0/1:8,10\t0/1:8,11"

/-- A data line rejected by FILTER (not PASS). -/
def exFailLine : String :=
  "chr1\t200\t.\tA\tT\t.\tq10\tRU=A\tGT:REPCN\t0/1:5\t0/1:6"

/-- A data line whose REPCN values are the missing-value sentinel, so the
parsed allele strings are not numeric. -/
def exDotLine : String :=
  "chr1\t300\t.\tA\tT\t.\tPASS\tRU=A\tGT:REPCN\t0/1:.\t0/1:6"

/-- A header line with only one sample column: parsing raises. -/
def exBadHeaderLine : String :=
  "#CHROM\tPOS\tID\tREF\tALT\tQUAL\tFILTER\tINFO\tFORMAT\tONLY1"

/-- A FILTER-rejected first data line whose FORMAT column (GT:REPCN) differs
from the later lines: its 9th column is never consulted by the code. -/
def c4FailLine : String :=
  "chr1\t1\t.\tA\tT\t.\tq10\tRU=A\tGT:REPCN\t0/1:3,4\t0/1:3,5"

/-- A PASS data line with FORMAT column REPCN:GT. -/
def c4PassLine : String :=
  "chr1\t2\t.\tA\tT\t.\tPASS\tRU=A\tREPCN:GT\t5,6:0/1\t5,7:0/1"

/-- The file of the C4 counterexample: the first non-header data line fails
FILTER, so the FORMAT ordering is taken from the second data line. -/
def c4CexLines : List String := [exHeaderLine, c4FailLine, c4PassLine]

/-- A small well-formed file: header, one accepted line, one FILTER-rejected
line, one non-numeric line. -/
def exLines : List String := [exHeaderLine, exPassLine, exFailLine, exDotLine]

/-- The final extractor state on `exLines` (the file parses cleanly). -/
def exSt : ExtractState :=
  match process_vcf_to_rows "s1.vcf" exLines with
  | Except.ok st => st
  | Except.error _ => initState

/-- The final extractor state on the C4 counterexample file. -/
def c4St : ExtractState :=
  match process_vcf_to_rows "f.vcf" c4CexLines with
  | Except.ok st => st
  | Except.error _ => initState

/-- Guard of the FORMAT-field assignment in `process_vcf_to_rows`: a line
reaches the assignment exactly when it is a non-header line with at least
10 tab-separated columns, FILTER equal to PASS and no PERFECT=FALSE flag in
INFO. -/
def reachesFormatAssignment (line : String) : Bool :=
  !strStarts "#" line &&
    (let cols := strSplitOnChar '\t' (pyStrip line)
     !decide (cols.length < 10) && (cols.getD 6 "" == "PASS") &&
       !(dictGetD (parse_info (cols.getD 7 "")) "PERFECT" "" == "FALSE"))

/-- The colon-split 9th column of a line (the FORMAT key ordering the code
reads off a data line). -/
def col9Format (line : String) : List String :=
  strSplitOnChar ':' ((strSplitOnChar '\t' (pyStrip line)).getD 8 "")

/-- Modelled from the claim wording, for refutation only: the FORMAT
ordering as claim C4 describes it — the colon-split 9th column of the first
non-header data line of the file. -/
def claimFirstDataLineFormat (lines : List String) : Option (List String) :=
  (lines.find? (fun l => !strStarts "#" l)).map col9Format

/-- All four allele fields of a Mutation Record are numeric strings. -/
def rowNumeric (r : MutationRecord) : Prop :=
  pyIsNumeric r.tumor_allele_a = true ∧ pyIsNumeric r.tumor_allele_b = true ∧
    pyIsNumeric r.normal_allele_a = true ∧ pyIsNumeric r.normal_allele_b = true

/-!  Helper lemmas about the matrix builder. -/

lemma build_eq_empty {cfg : BuildConfig} {rows : List DataRow}
    (h : meltLong cfg rows = []) :
    build_mutation_matrix cfg rows = emptyMatrix := by
  simp [build_mutation_matrix, h]

/-- C6: `build_mutation_matrix` returns the explicitly empty matrix (and,
being a total function of the embedding, does not raise) whenever no
allele-level events survive suppression; with `ru=None, ref_length=False,
change=False` every label is suppressed, so the result is empty for every
input table. -/
theorem c6_empty_when_no_events :
    (∀ (cfg : BuildConfig) (rows : List DataRow),
      meltLong cfg rows = [] → build_mutation_matrix cfg rows = emptyMatrix)
    ∧ ∀ rows : List DataRow,
        build_mutation_matrix { ru := RUMode.noRU, ref_length := false, change := false } rows
          = emptyMatrix := by
  refine ⟨fun cfg rows h => build_eq_empty h, fun rows => build_eq_empty ?_⟩
  have ha : ∀ r : DataRow,
      mutation_type_a { ru := RUMode.noRU, ref_length := false, change := false } r = none := by
    intro r
    unfold mutation_type_a
    cases hm : r.motif <;> simp [make_feature, hm]
  have hb : ∀ r : DataRow,
      mutation_type_b { ru := RUMode.noRU, ref_length := false, change := false } r = none := by
    intro r
    unfold mutation_type_b
    cases hm : r.motif <;> simp [make_feature, hm]
  simp [meltLong, List.filterMap_eq_nil_iff, ha, hb]

/-- Witness for C6 at a concrete input. -/
theorem c6_witness :
    build_mutation_matrix cfgLenRefChange [] = emptyMatrix :=
  c6_empty_when_no_events.1 cfgLenRefChange [] rfl

/-- C10: a record whose motif cell is NA is suppressed in both allele slots
under every configuration, including `ru=None` where the motif does not
appear in the label, so it never contributes an event or a count. -/
theorem c10_na_motif_suppressed (cfg : BuildConfig) (r : DataRow)
    (h : r.motif = none) :
    meltLong cfg [r] = [] ∧ build_mutation_matrix cfg [r] = emptyMatrix := by
  have ha : mutation_type_a cfg r = none := by
    unfold mutation_type_a; rw [h]; rfl
  have hb : mutation_type_b cfg r = none := by
    unfold mutation_type_b; rw [h]; rfl
  have hm : meltLong cfg [r] = [] := by simp [meltLong, ha, hb]
  exact ⟨hm, build_eq_empty hm⟩

/-- Witness for C10: the NA-motif record under `ru=None` contributes
nothing. -/
theorem c10_witness :
    meltLong { ru := RUMode.noRU, ref_length := true, change := false } [rowNAMotif] = []
    ∧ build_mutation_matrix { ru := RUMode.noRU, ref_length := true, change := false } [rowNAMotif]
        = emptyMatrix :=
  c10_na_motif_suppressed _ rowNAMotif rfl

/-- C2: for the concrete scenario record (motif AT, normal (8, 10), tumor
(8, 11)): under `ru="length", ref_length=True, change=True` the allele-A
event is suppressed (delta 0) and the single surviving event carries label
LEN2_10_+1, incrementing that sample/column count by one over any other
records; under `ru=None, ref_length=True, change=False` the record yields
exactly the two events labelled 8 and 10. -/
theorem c2_concrete_scenario :
    meltLong cfgLenRefChange [rowC2] = [("S1", "LEN2_10_+1")]
    ∧ build_mutation_matrix cfgLenRefChange [rowC2]
        = { samples := ["S1"], labels := ["LEN2_10_+1"], cells := [[1]] }
    ∧ meltLong cfgRefOnly [rowC2] = [("S1", "8"), ("S1", "10")]
    ∧ ∀ rest : List DataRow,
        (meltLong cfgLenRefChange (rowC2 :: rest)).countP (fun e => e == ("S1", "LEN2_10_+1"))
          = (meltLong cfgLenRefChange rest).countP (fun e => e == ("S1", "LEN2_10_+1")) + 1 := by
  refine ⟨by decide, by decide, by decide, fun rest => ?_⟩
  have ha : mutation_type_a cfgLenRefChange rowC2 = none := by decide
  have hb : mutation_type_b cfgLenRefChange rowC2 = some "LEN2_10_+1" := by decide
  simp only [meltLong, List.filterMap_cons, ha, hb, Option.map_none', Option.map_some',
    List.countP_append, List.countP_cons]
  have hp : (((rowC2.sample, "LEN2_10_+1") : String × String) == ("S1", "LEN2_10_+1")) = true := by
    decide
  simp [hp]
  omega

lemma compute_changes_of_parsed {r : DataRow} {ta tb na nb : Int}
    (hta : cellInt r.tumor_allele_a = some ta) (htb : cellInt r.tumor_allele_b = some tb)
    (hna : cellInt r.normal_allele_a = some na) (hnb : cellInt r.normal_allele_b = some nb) :
    compute_allele_changes r =
      { change_a := some (min ta tb - min na nb)
        change_b := some (max ta tb - max na nb)
        ref_a := some (min na nb)
        ref_b := some (max na nb) } := by
  unfold compute_allele_changes
  rw [hta, htb, hna, hnb]

lemma make_feature_delta_zero (rm : RUMode) (rl : Bool) (m : String) (ref : Option Int) :
    make_feature { ru := rm, ref_length := rl, change := true } (some m) ref (some 0) = none := by
  cases rm <;> cases rl <;> cases ref <;> simp [make_feature]

lemma make_feature_no_change_some (rm : RUMode) (rl : Bool) (m : String) (rv : Int)
    (delta : Option Int) (h : rm ≠ RUMode.noRU ∨ rl = true) :
    ∃ lab, make_feature { ru := rm, ref_length := rl, change := false } (some m) (some rv) delta
      = some lab := by
  cases rm <;> cases rl <;>
    first
      | exact ⟨_, rfl⟩
      | simp at h

/-- C3: a record whose sorted tumor pair equals its sorted normal pair
(both slot deltas zero) contributes no event under `change=True` for any
`ru`/`ref_length` setting, and exactly two events under `change=False`
whenever at least one of `ru` or `ref_length` is enabled (the motif and
allele fields being present and parseable). -/
theorem c3_zero_delta_exclusion (r : DataRow) (ta tb na nb : Int) (m : String)
    (hta : cellInt r.tumor_allele_a = some ta) (htb : cellInt r.tumor_allele_b = some tb)
    (hna : cellInt r.normal_allele_a = some na) (hnb : cellInt r.normal_allele_b = some nb)
    (hm : r.motif = some m)
    (hmin : min ta tb = min na nb) (hmax : max ta tb = max na nb) :
    (∀ (rm : RUMode) (rl : Bool),
      meltLong { ru := rm, ref_length := rl, change := true } [r] = [])
    ∧ ∀ (rm : RUMode) (rl : Bool), rm ≠ RUMode.noRU ∨ rl = true →
        (meltLong { ru := rm, ref_length := rl, change := false } [r]).length = 2 := by
  have hc := compute_changes_of_parsed hta htb hna hnb
  constructor
  · intro rm rl
    have ha : mutation_type_a { ru := rm, ref_length := rl, change := true } r = none := by
      simp only [mutation_type_a, hc, hm, hmin, sub_self]
      exact make_feature_delta_zero rm rl m _
    have hb : mutation_type_b { ru := rm, ref_length := rl, change := true } r = none := by
      simp only [mutation_type_b, hc, hm, hmax, sub_self]
      exact make_feature_delta_zero rm rl m _
    simp [meltLong, ha, hb]
  · intro rm rl h
    obtain ⟨la, hla⟩ := make_feature_no_change_some rm rl m (min na nb) (some 0) h
    obtain ⟨lb, hlb⟩ := make_feature_no_change_some rm rl m (max na nb) (some 0) h
    have ha : mutation_type_a { ru := rm, ref_length := rl, change := false } r = some la := by
      simp only [mutation_type_a, hc, hm, hmin, sub_self]
      exact hla
    have hb : mutation_type_b { ru := rm, ref_length := rl, change := false } r = some lb := by
      simp only [mutation_type_b, hc, hm, hmax, sub_self]
      exact hlb
    simp [meltLong, ha, hb]

/-- Witness for C3: the record with sorted tumor pair (10, 12) equal to its
sorted normal pair contributes zero events with `change=True` and two with
`change=False`. -/
theorem c3_witness :
    meltLong { ru := RUMode.length, ref_length := true, change := true } [rowC3] = []
    ∧ (meltLong { ru := RUMode.length, ref_length := true, change := false } [rowC3]).length = 2 :=
  ⟨(c3_zero_delta_exclusion rowC3 10 12 12 10 "A" (by decide) (by decide) (by decide)
      (by decide) (by decide) (by decide) (by decide)).1 RUMode.length true,
   (c3_zero_delta_exclusion rowC3 10 12 12 10 "A" (by decide) (by decide) (by decide)
      (by decide) (by decide) (by decide) (by decide)).2 RUMode.length true
      (Or.inl (by decide))⟩

lemma listStarts_extend (a : List Char) : ∀ b c : List Char,
    listStarts a b = true → listStarts a (b ++ c) = true := by
  induction a with
  | nil => intro b c _; rfl
  | cons x xs ih =>
    intro b c h
    cases b with
    | nil => simp [listStarts] at h
    | cons y ys =>
      simp only [listStarts, Bool.and_eq_true, beq_iff_eq] at h ⊢
      exact ⟨h.1, ih ys c h.2⟩

lemma listStarts_self (l : List Char) : listStarts l l = true := by
  induction l with
  | nil => rfl
  | cons x xs ih => simp [listStarts, ih]

lemma strEnds_self (p : String) : strEnds p p = true := by
  unfold strEnds
  exact listStarts_self _

lemma strEnds_append_left (p s q : String) (h : strEnds p s = true) :
    strEnds p (q ++ s) = true := by
  unfold strEnds at h ⊢
  rw [String.data_append, List.reverse_append]
  exact listStarts_extend _ _ _ h

lemma strEnds_joinUnderscore (x : String) : ∀ ps : List String,
    strEnds x (joinUnderscore (ps ++ [x])) = true := by
  intro ps
  induction ps with
  | nil => simpa [joinUnderscore] using strEnds_self x
  | cons p ps ih =>
    cases hps : ps ++ [x] with
    | nil => simp at hps
    | cons y t =>
      have hj : joinUnderscore ((p :: ps) ++ [x]) = p ++ "_" ++ joinUnderscore (y :: t) := by
        rw [List.cons_append, hps]
        rfl
      rw [hj]
      rw [hps] at ih
      exact strEnds_append_left x (joinUnderscore (y :: t)) (p ++ "_") ih

lemma make_feature_change_label {rm : RUMode} {rl : Bool} {motif : Option String}
    {ref delta : Option Int} {label : String}
    (h : make_feature { ru := rm, ref_length := rl, change := true } motif ref delta
      = some label) :
    ∃ d : Int, delta = some d ∧ d ≠ 0 ∧ strEnds (fmtSigned d) label = true := by
  cases motif with
  | none => simp [make_feature] at h
  | some m =>
    cases delta with
    | none => cases rm <;> cases rl <;> cases ref <;> simp [make_feature] at h
    | some d =>
      by_cases hd : d = 0
      · subst hd
        cases rm <;> cases rl <;> cases ref <;> simp [make_feature] at h
      · refine ⟨d, rfl, hd, ?_⟩
        cases rm <;> cases rl <;> cases ref <;> simp [make_feature, hd] at h <;>
          rw [← h] <;>
          first
            | exact strEnds_joinUnderscore (fmtSigned d) []
            | exact strEnds_joinUnderscore (fmtSigned d) [m]
            | exact strEnds_joinUnderscore (fmtSigned d) ["LEN" ++ toString (String.length m)]
            | exact strEnds_joinUnderscore (fmtSigned d) [toString _]
            | exact strEnds_joinUnderscore (fmtSigned d) [m, toString _]
            | exact strEnds_joinUnderscore (fmtSigned d) ["LEN" ++ toString (String.length m), toString _]

lemma label_of_build {cfg : BuildConfig} {rows : List DataRow} {label : String}
    (h : label ∈ (build_mutation_matrix cfg rows).labels) :
    ∃ r ∈ rows, mutation_type_a cfg r = some label ∨ mutation_type_b cfg r = some label := by
  unfold build_mutation_matrix at h
  cases he : (meltLong cfg rows).isEmpty with
  | true => simp [he, emptyMatrix] at h
  | false =>
    simp only [he, Bool.false_eq_true, if_false] at h
    have h1 : label ∈ (meltLong cfg rows).map Prod.snd := by
      have h2 : label ∈ (List.insertionSort (· ≤ ·) ((meltLong cfg rows).map Prod.snd)).dedup := h
      rw [List.mem_dedup] at h2
      exact (List.perm_insertionSort _ _).mem_iff.mp h2
    rcases List.mem_map.mp h1 with ⟨ev, hev, hsnd⟩
    rcases List.mem_append.mp hev with hA | hB
    · rcases List.mem_filterMap.mp hA with ⟨r, hr, hfr⟩
      cases hma : mutation_type_a cfg r with
      | none => rw [hma] at hfr; simp at hfr
      | some l =>
        rw [hma] at hfr
        simp only [Option.map_some', Option.some.injEq] at hfr
        refine ⟨r, hr, Or.inl ?_⟩
        rw [hma]
        rw [← hfr] at hsnd
        simpa using congrArg some hsnd
    · rcases List.mem_filterMap.mp hB with ⟨r, hr, hfr⟩
      cases hmb : mutation_type_b cfg r with
      | none => rw [hmb] at hfr; simp at hfr
      | some l =>
        rw [hmb] at hfr
        simp only [Option.map_some', Option.some.injEq] at hfr
        refine ⟨r, hr, Or.inr ?_⟩
        rw [hmb]
        rw [← hfr] at hsnd
        simpa using congrArg some hsnd

/-- C7: with `change=True` every feature label produced by
`build_mutation_matrix` ends in the signed non-zero delta (explicit leading
plus for positive values, bare digits with the minus sign for negative
values, as `fmtSigned` formats it); with `change=False` the label carries no
signed-delta component at all (`make_feature` is independent of the
delta). -/
theorem c7_signed_delta_suffix :
    (∀ (cfg : BuildConfig) (rows : List DataRow) (label : String), cfg.change = true →
      label ∈ (build_mutation_matrix cfg rows).labels →
      ∃ d : Int, d ≠ 0 ∧ strEnds (fmtSigned d) label = true)
    ∧ ∀ (rm : RUMode) (rl : Bool) (motif : Option String) (ref d₁ d₂ : Option Int),
        make_feature { ru := rm, ref_length := rl, change := false } motif ref d₁
          = make_feature { ru := rm, ref_length := rl, change := false } motif ref d₂ := by
  constructor
  · intro cfg rows label hch hmem
    obtain ⟨r, _, hor⟩ := label_of_build hmem
    rcases cfg with ⟨cru, crl, cch⟩
    simp only at hch
    subst hch
    rcases hor with hca | hcb
    · simp only [mutation_type_a] at hca
      obtain ⟨d, _, hd, hsuf⟩ := make_feature_change_label hca
      exact ⟨d, hd, hsuf⟩
    · simp only [mutation_type_b] at hcb
      obtain ⟨d, _, hd, hsuf⟩ := make_feature_change_label hcb
      exact ⟨d, hd, hsuf⟩
  · intro rm rl motif ref d₁ d₂
    cases rm <;> cases rl <;> cases motif <;> cases ref <;> rfl

/-- Witness for C7 at the concrete scenario label. -/
theorem c7_witness :
    ∃ d : Int, d ≠ 0 ∧ strEnds (fmtSigned d) "LEN2_10_+1" = true :=
  c7_signed_delta_suffix.1 cfgLenRefChange [rowC2] "LEN2_10_+1" rfl (by decide)

lemma meltLong_perm (cfg : BuildConfig) {rows₁ rows₂ : List DataRow} (h : rows₁.Perm rows₂) :
    (meltLong cfg rows₁).Perm (meltLong cfg rows₂) :=
  (h.filterMap _).append (h.filterMap _)

lemma sortDedup_eq_of_perm {l₁ l₂ : List String} (h : l₁.Perm l₂) :
    sortDedup l₁ = sortDedup l₂ := by
  unfold sortDedup
  apply List.eq_of_perm_of_sorted (r := (· ≤ · : String → String → Prop))
  · exact (((List.perm_insertionSort _ l₁).trans h).trans
      (List.perm_insertionSort _ l₂).symm).dedup
  · exact List.Pairwise.sublist (List.dedup_sublist _) (List.sorted_insertionSort _ l₁)
  · exact List.Pairwise.sublist (List.dedup_sublist _) (List.sorted_insertionSort _ l₂)

/-- C8: `build_mutation_matrix` is deterministic (it is a function of its
arguments) and row-order invariant: permuting the input rows leaves the
output matrix — sorted sample axis, sorted label axis and all counts —
unchanged. -/
theorem c8_row_order_invariant (cfg : BuildConfig) (rows₁ rows₂ : List DataRow)
    (h : rows₁.Perm rows₂) :
    build_mutation_matrix cfg rows₁ = build_mutation_matrix cfg rows₂ := by
  have hev := meltLong_perm cfg h
  unfold build_mutation_matrix
  cases he : (meltLong cfg rows₁).isEmpty with
  | true =>
    have h1 : meltLong cfg rows₁ = [] := List.isEmpty_iff.mp he
    have h2 : meltLong cfg rows₂ = [] := by
      have h3 := hev.symm
      rw [h1] at h3
      exact List.perm_nil.mp h3
    simp [h1, h2]
  | false =>
    have he₂ : (meltLong cfg rows₂).isEmpty = false := by
      cases h2 : meltLong cfg rows₂ with
      | nil =>
        rw [h2] at hev
        rw [List.perm_nil.mp hev] at he
        simp at he
      | cons e es => rfl
    have hc : ∀ p : String × String → Bool,
        (meltLong cfg rows₁).countP p = (meltLong cfg rows₂).countP p :=
      fun p => hev.countP_eq p
    have hs : sortDedup ((meltLong cfg rows₁).map Prod.fst)
        = sortDedup ((meltLong cfg rows₂).map Prod.fst) :=
      sortDedup_eq_of_perm (hev.map _)
    have hl : sortDedup ((meltLong cfg rows₁).map Prod.snd)
        = sortDedup ((meltLong cfg rows₂).map Prod.snd) :=
      sortDedup_eq_of_perm (hev.map _)
    simp only [he, he₂, Bool.false_eq_true, if_false, hs, hl, hc]

/-- Witness for C8: swapping two concrete records leaves the matrix
unchanged. -/
theorem c8_witness :
    build_mutation_matrix cfgLenRefChange [rowC2, rowC3]
      = build_mutation_matrix cfgLenRefChange [rowC3, rowC2] :=
  c8_row_order_invariant cfgLenRefChange _ _ (List.Perm.swap rowC3 rowC2 [])

lemma extractStep_rows {sn : String} {st : ExtractState} {line : String} {st' : ExtractState}
    (h : extractStep sn st line = Except.ok st') :
    st'.rows = st.rows ∨ ∃ row, rowNumeric row ∧ st'.rows = st.rows ++ [row] := by
  unfold extractStep at h
  by_cases h1 : strStarts "#CHROM" line = true
  · simp only [h1, if_true] at h
    by_cases h2 : (List.drop 9 (strSplitOnChar '\t' (pyStrip line))).length < 2
    · rw [if_pos h2] at h; cases h
    · rw [if_neg h2] at h; cases h; exact Or.inl rfl
  · simp only [h1, Bool.false_eq_true, if_false] at h
    set cols := strSplitOnChar '\t' (pyStrip line) with hcols
    by_cases h2 : strStarts "#" line = true
    · rw [if_pos h2] at h; cases h; exact Or.inl rfl
    · rw [if_neg h2] at h
      by_cases h3 : cols.length < 10
      · rw [if_pos h3] at h; cases h; exact Or.inl rfl
      · rw [if_neg h3] at h
        by_cases h4 : cols.getD 6 "" ≠ "PASS"
        · rw [if_pos h4] at h; cases h; exact Or.inl rfl
        · rw [if_neg h4] at h
          by_cases h5 : dictGetD (parse_info (cols.getD 7 "")) "PERFECT" "" = "FALSE"
          · rw [if_pos h5] at h; cases h; exact Or.inl rfl
          · rw [if_neg h5] at h
            cases hni : st.normalIdx with
            | none => rw [hni] at h; cases hti : st.tumorIdx <;> rw [hti] at h <;> cases h
            | some ni =>
              rw [hni] at h
              cases hti : st.tumorIdx with
              | none => rw [hti] at h; cases h
              | some ti =>
                rw [hti] at h
                simp only [] at h
                set fmt := (match st.formatFields with
                  | none => strSplitOnChar ':' (cols.getD 8 "")
                  | some l => l) with hfmt
                by_cases h6 : ni < cols.length ∧ ti < cols.length
                · rw [if_pos h6] at h
                  by_cases h7 : (pyIsNumeric (getRepcn fmt (cols.getD ni "")).1 &&
                      pyIsNumeric (getRepcn fmt (cols.getD ni "")).2 &&
                      pyIsNumeric (getRepcn fmt (cols.getD ti "")).1 &&
                      pyIsNumeric (getRepcn fmt (cols.getD ti "")).2) = true
                  · rw [if_pos h7] at h
                    cases h
                    simp only [Bool.and_eq_true] at h7
                    exact Or.inr ⟨_, ⟨h7.1.2, h7.2, h7.1.1.1, h7.1.1.2⟩, rfl⟩
                  · rw [if_neg h7] at h; cases h; exact Or.inl rfl
                · rw [if_neg h6] at h; cases h

lemma listStarts_single_of_cons {c : Char} {p l : List Char}
    (h : listStarts (c :: p) l = true) : listStarts [c] l = true := by
  cases l with
  | nil => simp [listStarts] at h
  | cons y ys =>
    simp only [listStarts, Bool.and_eq_true] at h ⊢
    exact ⟨h.1, trivial⟩

lemma strStarts_hash_of_chrom {line : String} (h : strStarts "#CHROM" line = true) :
    strStarts "#" line = true := by
  unfold strStarts at h ⊢
  have hd : "#CHROM".data = '#' :: "CHROM".data := rfl
  rw [hd] at h
  have hd1 : "#".data = ['#'] := rfl
  rw [hd1]
  exact listStarts_single_of_cons h

lemma extractStep_format {sn : String} {st : ExtractState} {line : String} {st' : ExtractState}
    (h : extractStep sn st line = Except.ok st') :
    st'.formatFields =
      match st.formatFields with
      | some f => some f
      | none => if reachesFormatAssignment line then some (col9Format line) else none := by
  unfold extractStep at h
  by_cases h1 : strStarts "#CHROM" line = true
  · simp only [h1, if_true] at h
    by_cases h2 : (List.drop 9 (strSplitOnChar '\t' (pyStrip line))).length < 2
    · rw [if_pos h2] at h; cases h
    · rw [if_neg h2] at h
      cases h
      cases hsf : st.formatFields <;>
        simp [hsf, reachesFormatAssignment, strStarts_hash_of_chrom h1]
  · simp only [h1, Bool.false_eq_true, if_false] at h
    set cols := strSplitOnChar '\t' (pyStrip line) with hcols
    by_cases h2 : strStarts "#" line = true
    · rw [if_pos h2] at h
      cases h
      cases hsf : st.formatFields <;> simp [hsf, reachesFormatAssignment, h2]
    · rw [if_neg h2] at h
      by_cases h3 : cols.length < 10
      · rw [if_pos h3] at h
        cases h
        cases hsf : st.formatFields <;>
          simp [hsf, reachesFormatAssignment, ← hcols, h2, h3]
      · rw [if_neg h3] at h
        by_cases h4 : cols.getD 6 "" ≠ "PASS"
        · rw [if_pos h4] at h
          cases h
          simp only [List.getD_eq_getElem?_getD] at h4
          cases hsf : st.formatFields <;>
            simp [hsf, reachesFormatAssignment, ← hcols, h2, h3, h4]
        · rw [if_neg h4] at h
          rw [not_not] at h4
          by_cases h5 : dictGetD (parse_info (cols.getD 7 "")) "PERFECT" "" = "FALSE"
          · rw [if_pos h5] at h
            cases h
            simp only [List.getD_eq_getElem?_getD] at h4 h5
            cases hsf : st.formatFields <;>
              simp [hsf, reachesFormatAssignment, ← hcols, h2, h3, h4, h5]
          · rw [if_neg h5] at h
            cases hni : st.normalIdx with
            | none => rw [hni] at h; cases hti : st.tumorIdx <;> rw [hti] at h <;> cases h
            | some ni =>
              rw [hni] at h
              cases hti : st.tumorIdx with
              | none => rw [hti] at h; cases h
              | some ti =>
                rw [hti] at h
                simp only [] at h
                by_cases h6 : ni < cols.length ∧ ti < cols.length
                · rw [if_pos h6] at h
                  cases hsf : st.formatFields with
                  | some f =>
                    rw [hsf] at h
                    simp only [] at h
                    split at h <;> cases h <;> rfl
                  | none =>
                    rw [hsf] at h
                    simp only [] at h
                    have hreach : reachesFormatAssignment line = true := by
                      simp only [List.getD_eq_getElem?_getD] at h4 h5
                      simp [reachesFormatAssignment, ← hcols, h2, h3, h4, h5]
                    split at h <;> cases h <;>
                      simp [hreach, col9Format, ← hcols]
                · rw [if_neg h6] at h; cases h

lemma processLines_rows_numeric {sn : String} : ∀ (ls : List String) (st st' : ExtractState),
    processLines sn st ls = Except.ok st' → (∀ r ∈ st.rows, rowNumeric r) →
    ∀ r ∈ st'.rows, rowNumeric r := by
  intro ls
  induction ls with
  | nil => intro st st' h hi; cases h; exact hi
  | cons l ls ih =>
    intro st st' h hi
    unfold processLines at h
    cases hstep : extractStep sn st l with
    | error e => rw [hstep] at h; cases h
    | ok st₁ =>
      rw [hstep] at h
      refine ih st₁ st' h ?_
      intro r hr
      rcases extractStep_rows hstep with heq | ⟨row, hnum, heq⟩
      · rw [heq] at hr; exact hi r hr
      · rw [heq] at hr
        rcases List.mem_append.mp hr with hm | hm
        · exact hi r hm
        · rw [List.mem_singleton.mp hm]; exact hnum

lemma processLines_format_some {sn : String} : ∀ (ls : List String) (st st' : ExtractState)
    (fmt : List String), processLines sn st ls = Except.ok st' →
    st.formatFields = some fmt → st'.formatFields = some fmt := by
  intro ls
  induction ls with
  | nil => intro st st' fmt h hf; cases h; exact hf
  | cons l ls ih =>
    intro st st' fmt h hf
    unfold processLines at h
    cases hstep : extractStep sn st l with
    | error e => rw [hstep] at h; cases h
    | ok st₁ =>
      rw [hstep] at h
      refine ih st₁ st' fmt h ?_
      have h1 := extractStep_format hstep
      rw [hf] at h1
      exact h1

lemma processLines_format_none {sn : String} : ∀ (ls : List String) (st st' : ExtractState),
    processLines sn st ls = Except.ok st' → st.formatFields = none →
    st'.formatFields = (ls.find? reachesFormatAssignment).map col9Format := by
  intro ls
  induction ls with
  | nil => intro st st' h hf; cases h; simpa using hf
  | cons l ls ih =>
    intro st st' h hf
    unfold processLines at h
    cases hstep : extractStep sn st l with
    | error e => rw [hstep] at h; cases h
    | ok st₁ =>
      rw [hstep] at h
      have h1 := extractStep_format hstep
      rw [hf] at h1
      by_cases hr : reachesFormatAssignment l = true
      · rw [if_pos hr] at h1
        rw [List.find?_cons_of_pos _ hr, Option.map_some']
        exact processLines_format_some ls st₁ st' _ h h1
      · rw [if_neg hr] at h1
        rw [List.find?_cons_of_neg _ (by simpa using hr)]
        exact ih st₁ st' h h1

/-- C1: every Mutation Record emitted by a successful run of
`process_vcf_to_rows` has four allele fields that are nonempty strings of
decimal digits, and each input line contributes either no record at all or
exactly one record whose allele fields are all numeric — a line whose
parsed alleles are not all numeric is dropped, never emitted with
placeholder values. -/
theorem c1_records_numeric (path : String) (lines : List String) (st : ExtractState)
    (h : process_vcf_to_rows path lines = Except.ok st) :
    (∀ r ∈ st.rows,
      pyIsNumeric r.tumor_allele_a = true ∧ pyIsNumeric r.tumor_allele_b = true ∧
        pyIsNumeric r.normal_allele_a = true ∧ pyIsNumeric r.normal_allele_b = true)
    ∧ ∀ (sn : String) (st₁ : ExtractState) (line : String) (st₂ : ExtractState),
        extractStep sn st₁ line = Except.ok st₂ →
        st₂.rows = st₁.rows ∨ ∃ row, rowNumeric row ∧ st₂.rows = st₁.rows ++ [row] :=
  ⟨processLines_rows_numeric lines initState st h (by intro r hr; cases hr),
   fun _ _ _ _ hstep => extractStep_rows hstep⟩

/-- Witness for C1 on a concrete file: the single record parsed from
`exLines` has numeric allele fields. -/
theorem c1_witness :
    pyIsNumeric (MutationRecord.mk "s1" "chr1_100" "8" "11" "8" "10" "120" "2" "10" "AT").tumor_allele_a = true ∧
      pyIsNumeric (MutationRecord.mk "s1" "chr1_100" "8" "11" "8" "10" "120" "2" "10" "AT").tumor_allele_b = true ∧
      pyIsNumeric (MutationRecord.mk "s1" "chr1_100" "8" "11" "8" "10" "120" "2" "10" "AT").normal_allele_a = true ∧
      pyIsNumeric (MutationRecord.mk "s1" "chr1_100" "8" "11" "8" "10" "120" "2" "10" "AT").normal_allele_b = true :=
  (c1_records_numeric "s1.vcf" exLines exSt rfl).1
    (MutationRecord.mk "s1" "chr1_100" "8" "11" "8" "10" "120" "2" "10" "AT") (by decide)

/-- C4 counterexample: on `c4CexLines` the first non-header data line is
rejected by FILTER, and the FORMAT ordering the code uses comes from the
later PASS line (REPCN:GT), not from the 9th column of the first non-header
data line (GT:REPCN) as the claim states. -/
theorem c4_counterexample :
    process_vcf_to_rows "f.vcf" c4CexLines = Except.ok c4St
    ∧ c4St.formatFields = some ["REPCN", "GT"]
    ∧ claimFirstDataLineFormat c4CexLines = some ["GT", "REPCN"]
    ∧ c4St.formatFields ≠ claimFirstDataLineFormat c4CexLines :=
  ⟨rfl, by decide, by decide, by decide⟩

/-- C4 (amended): within a single file, `process_vcf_to_rows` determines
the FORMAT key ordering exactly once — from the 9th column of the first
data line that reaches the FORMAT assignment (non-header, at least 10
columns, FILTER equal to PASS, not flagged PERFECT=FALSE) — and that
ordering is the one in effect for the whole file (it is never
re-derived). -/
theorem c4_format_determined_once (path : String) (lines : List String) (st : ExtractState)
    (h : process_vcf_to_rows path lines = Except.ok st) :
    st.formatFields = (lines.find? reachesFormatAssignment).map col9Format :=
  processLines_format_none lines initState st h rfl

/-- Witness for the amended C4 theorem on the concrete file. -/
theorem c4_witness :
    c4St.formatFields = (c4CexLines.find? reachesFormatAssignment).map col9Format :=
  c4_format_determined_once "f.vcf" c4CexLines c4St rfl

/-- C5: a file whose parsing raises any error is excluded entirely from the
`parse_vcf_files` scan — none of its already-parsed records appear in the result,
and the remaining files are processed exactly as if the failing file were
absent. -/
theorem c5_failing_file_isolated (pre post : List (String × List String))
    (name : String) (lines : List String) (e : String)
    (h : process_vcf_to_rows name lines = Except.error e) :
    parse_vcf_files (pre ++ (name, lines) :: post) = parse_vcf_files (pre ++ post) := by
  unfold parse_vcf_files
  simp only [List.foldl_append, List.foldl_cons]
  rw [h]
  congr 1
  split <;> rfl

/-- Witness for C5: a file whose header has a single sample column fails
and is skipped; the two healthy neighbours are processed as if it were
absent. -/
theorem c5_witness :
    parse_vcf_files ([("a.vcf", [exHeaderLine, exPassLine])]
        ++ ("bad.vcf", [exBadHeaderLine]) :: [("b.vcf", [exHeaderLine])])
      = parse_vcf_files ([("a.vcf", [exHeaderLine, exPassLine])] ++ [("b.vcf", [exHeaderLine])]) :=
  c5_failing_file_isolated [("a.vcf", [exHeaderLine, exPassLine])] [("b.vcf", [exHeaderLine])]
    "bad.vcf" [exBadHeaderLine] "Expected at least 2 samples (normal, tumor) in VCF" rfl

/-- C9: the FILTER rejection percentage reported by `process_vcf_to_rows`
equals rejected / (rejected + accepted) × 100, is computed only when
rejected + accepted is strictly positive (and left uncomputed exactly when
both counts are zero, so no division by zero occurs), and always lies in
the interval [0, 100]. -/
theorem c9_rejection_report (path : String) (lines : List String) (st : ExtractState)
    (h : process_vcf_to_rows path lines = Except.ok st) :
    (st.writtenVariants + st.filterNotPassedCount = 0 → filterRejectionPercent st = none)
    ∧ (0 < st.writtenVariants + st.filterNotPassedCount →
        filterRejectionPercent st
          = some ((st.filterNotPassedCount : ℚ)
              / ((st.writtenVariants + st.filterNotPassedCount : Nat) : ℚ) * 100))
    ∧ ∀ q : ℚ, filterRejectionPercent st = some q → 0 ≤ q ∧ q ≤ 100 := by
  refine ⟨fun h0 => by simp [filterRejectionPercent, h0], fun hpos => by
    simp [filterRejectionPercent, hpos], ?_⟩
  intro q hq
  unfold filterRejectionPercent at hq
  simp only [gt_iff_lt] at hq
  by_cases hpos : 0 < st.writtenVariants + st.filterNotPassedCount
  · rw [if_pos hpos, Option.some.injEq] at hq
    subst hq
    constructor
    · positivity
    · have hfd : (st.filterNotPassedCount : ℚ)
          ≤ ((st.writtenVariants + st.filterNotPassedCount : Nat) : ℚ) := by
        exact_mod_cast Nat.le_add_left _ _
      have hdpos : (0 : ℚ) < ((st.writtenVariants + st.filterNotPassedCount : Nat) : ℚ) := by
        exact_mod_cast hpos
      have hdiv : (st.filterNotPassedCount : ℚ)
          / ((st.writtenVariants + st.filterNotPassedCount : Nat) : ℚ) ≤ 1 :=
        (div_le_one hdpos).mpr hfd
      linarith
  · rw [if_neg hpos] at hq
    cases hq

/-- Witness for C9 on the concrete file `exLines` (one accepted and one
FILTER-rejected line). -/
theorem c9_witness :
    filterRejectionPercent exSt
      = some ((exSt.filterNotPassedCount : ℚ)
          / ((exSt.writtenVariants + exSt.filterNotPassedCount : Nat) : ℚ) * 100) :=
  (c9_rejection_report "s1.vcf" exLines exSt rfl).2.1 (by decide)
